import Mathlib

/-!
# OpenTournament teleporter (`Source/OpenTournament/UR_Teleporter.cpp`)

A shallow embedding of `AUR_Teleporter`: the overlap handler `OnTriggerEnter`,
the eligibility check `IsPermittedToTeleport_Implementation`, the move
`PerformTeleport`, the sound cue `PlayTeleportEffects_Implementation` and the
facing computation `GetDesiredRotation`.

Scalars.  The engine's `float` is idealised as a linearly ordered field `K`
with a floor function: `ℚ` when the definitions are run, `ℝ` when exact
trigonometry is wanted.  Rounding is not modelled.

Pointers.  A nullable pointer is an `Option`; dereferencing `none` is the
fault `Fault.NullDereference`, returned through `Except`.

Objects.  The teleporter, its destination and the overlapping body are taken
to be three distinct actors, each with a root component, so that
`GetActorRotation()` and `GetRootComponent()->GetComponentRotation()` read the
same field.
-/

namespace OpenTournament

/-! ## Engine value types -/

/-- The engine's `FVector`. -/
structure FVector (K : Type) where
  X : K
  Y : K
  Z : K

/-- The engine's `FRotator`, in degrees. -/
structure FRotator (K : Type) where
  Pitch : K
  Yaw : K
  Roll : K

/-- The engine's sine, cosine (both taking degrees) and square root.  They are
not part of the repository and are taken as a parameter. -/
structure EngineMath (K : Type) where
  Sin : K → K
  Cos : K → K
  Sqrt : K → K

section Defs

variable {K : Type} [LinearOrderedField K] [FloorRing K]

/-- `FVector::ZeroVector`. -/
def FVector.ZeroVector : FVector K := ⟨0, 0, 0⟩

/-- `FVector::ForwardVector`. -/
def FVector.ForwardVector : FVector K := ⟨1, 0, 0⟩

/-- `FVector::operator*(float)`. -/
def FVector.Scale (V : FVector K) (s : K) : FVector K := ⟨V.X * s, V.Y * s, V.Z * s⟩

/-- `FVector::Size2D()`: the length of the XY part. -/
def FVector.Size2D (M : EngineMath K) (V : FVector K) : K := M.Sqrt (V.X * V.X + V.Y * V.Y)

/-- `FRotator::ZeroRotator`. -/
def FRotator.ZeroRotator : FRotator K := ⟨0, 0, 0⟩

/-- `FRotator::operator+`, component by component. -/
def FRotator.Add (A B : FRotator K) : FRotator K :=
  ⟨A.Pitch + B.Pitch, A.Yaw + B.Yaw, A.Roll + B.Roll⟩

/-- `FRotator::operator-`, component by component. -/
def FRotator.Sub (A B : FRotator K) : FRotator K :=
  ⟨A.Pitch - B.Pitch, A.Yaw - B.Yaw, A.Roll - B.Roll⟩

/-- Modelled from the spec: `FRotator::RotateVector` is engine code outside the
repository; the spec only says that it rotates the full 3D vector by the
rotator.  This is the engine's rotation matrix of (pitch, yaw, roll) applied to
the row vector `V`. -/
def FRotator.RotateVector (M : EngineMath K) (R : FRotator K) (V : FVector K) : FVector K :=
  let SP := M.Sin R.Pitch
  let SY := M.Sin R.Yaw
  let SR := M.Sin R.Roll
  let CP := M.Cos R.Pitch
  let CY := M.Cos R.Yaw
  let CR := M.Cos R.Roll
  ⟨V.X * (CP * CY) + V.Y * (SR * SP * CY - CR * SY) + V.Z * (-(CR * SP * CY + SR * SY)),
   V.X * (CP * SY) + V.Y * (SR * SP * SY + CR * CY) + V.Z * (CY * SR - CR * SP * SY),
   V.X * SP + V.Y * (-SR * CP) + V.Z * (CR * CP)⟩

/-- First loop of `FMath::UnwindDegrees`: `while (A > 180) A -= 360;`,
run for at most `n` rounds. -/
def unwindDown : Nat → K → K
  | 0, A => A
  | n + 1, A => if 180 < A then unwindDown n (A - 360) else A

/-- Second loop of `FMath::UnwindDegrees`: `while (A < -180) A += 360;`,
run for at most `n` rounds. -/
def unwindUp : Nat → K → K
  | 0, A => A
  | n + 1, A => if A < -180 then unwindUp n (A + 360) else A

/-- Modelled from the spec: `FMath::UnwindDegrees` is engine code outside the
repository; the spec describes it as subtracting 360 while the angle is above
180 and adding 360 while it is below -180.  Each loop is given the number of
rounds it needs (`unwindDown_exit` and `unwindUp_exit` show that both loops
have left by then). -/
def UnwindDegrees (A : K) : K :=
  let A1 := unwindDown (Int.toNat ⌈(A - 180) / 360⌉) A
  unwindUp (Int.toNat ⌈(-180 - A1) / 360⌉) A1

/-! ## Actors -/

/-- The classes of actor the teleporter tells apart: a plain `AActor`, the
engine's `ACharacter`, and the game's `AUR_Character` (an `ACharacter`). -/
inductive EActorClass where
  | Actor
  | Character
  | UR_Character
  deriving DecidableEq, Repr

/-- An `AController`: what the teleporter reads and writes is its control rotation. -/
structure AController (K : Type) where
  ControlRotation : FRotator K

/-- An actor as the teleporter sees it.  `Location`, `Rotation` and
`ComponentVelocity` belong to the root component.  `Controller` is what
`GetController()` returns (`none` for `nullptr`) and `Velocity` is
`GetMovementComponent()->Velocity`; both are only looked at for an
`ACharacter`, which creates its movement component itself. -/
structure AActor (K : Type) where
  Class : EActorClass
  Location : FVector K
  Rotation : FRotator K
  ComponentVelocity : FVector K
  Controller : Option (AController K)
  Velocity : FVector K

/-- `Cast<ACharacter>(Actor) != nullptr`. -/
def AActor.IsCharacter (A : AActor K) : Bool :=
  match A.Class with
  | .Actor => false
  | .Character => true
  | .UR_Character => true

/-- `Cast<AUR_Character>(Actor) != nullptr`. -/
def AActor.IsURCharacter (A : AActor K) : Bool :=
  match A.Class with
  | .Actor => false
  | .Character => false
  | .UR_Character => true

/-- `AActor::GetActorLocation`. -/
def AActor.GetActorLocation (A : AActor K) : FVector K := A.Location

/-- `AActor::GetActorRotation`. -/
def AActor.GetActorRotation (A : AActor K) : FRotator K := A.Rotation

/-- `AActor::SetActorLocation`. -/
def AActor.SetActorLocation (A : AActor K) (NewLocation : FVector K) : AActor K :=
  { A with Location := NewLocation }

/-- `AActor::SetActorRotation`. -/
def AActor.SetActorRotation (A : AActor K) (NewRotation : FRotator K) : AActor K :=
  { A with Rotation := NewRotation }

/-- `AController::SetControlRotation`. -/
def AController.SetControlRotation (_C : AController K) (NewRotation : FRotator K) :
    AController K :=
  { ControlRotation := NewRotation }

/-! ## The teleporter -/

/-- Modelled from the spec: the enumeration `EExitRotation` is declared in the
teleporter's header, which is not at hand; the spec lists the two policies
Relative and Fixed.  The code only ever tests for `ER_Relative`. -/
inductive EExitRotation where
  | ER_Relative
  | ER_Fixed
  deriving DecidableEq, Repr

/-- A sound asset (`USoundBase*` when not null). -/
structure USoundBase where
  Id : Nat
  deriving DecidableEq, Repr

/-- The fields of `AUR_Teleporter` the code reads, with the location and
rotation of its root component. -/
structure AUR_Teleporter (K : Type) where
  Location : FVector K
  Rotation : FRotator K
  DestinationActor : Option (AActor K)
  ExitRotationType : EExitRotation
  bKeepMomentum : Bool
  TeleportOutSound : Option USoundBase
  TeleportInSound : Option USoundBase

/-- `GetActorRotation()` of the teleporter itself; the same value as
`GetRootComponent()->GetComponentRotation()`. -/
def AUR_Teleporter.GetActorRotation (self : AUR_Teleporter K) : FRotator K := self.Rotation

/-- `GetActorLocation()` of the teleporter itself. -/
def AUR_Teleporter.GetActorLocation (self : AUR_Teleporter K) : FVector K := self.Location

/-- The teleporter as its constructor leaves it. -/
def AUR_Teleporter.Default (Location : FVector K) (Rotation : FRotator K) : AUR_Teleporter K :=
  { Location := Location, Rotation := Rotation, DestinationActor := none,
    ExitRotationType := .ER_Relative, bKeepMomentum := true,
    TeleportOutSound := none, TeleportInSound := none }

/-- The lines `GAME_LOG` writes. -/
inductive LogLine where
  | TeleporterTriggered
  | TeleportedCharacter
  | DestinationNotSet
  | CharacterInvalid
  deriving DecidableEq, Repr

/-- What the teleporter changes outside the overlapping body: the sounds
played (`UGameplayStatics::PlaySoundAtLocation`, latest last) and the log. -/
structure World (K : Type) where
  Sounds : List (USoundBase × FVector K)
  Log : List LogLine

/-- A dereference of a null pointer. -/
inductive Fault where
  | NullDereference
  deriving DecidableEq, Repr

/-- `GAME_LOG`: append a line to the log.  The macro is declared in a header
that is not at hand; its format arguments (among them
`DestinationActor->GetName()` on line 95, where `DestinationActor` is null) are
not evaluated here. -/
def GAME_LOG (w : World K) (l : LogLine) : World K :=
  { w with Log := w.Log ++ [l] }

/-- `UGameplayStatics::PlaySoundAtLocation`. -/
def PlaySoundAtLocation (w : World K) (Sound : USoundBase) (Location : FVector K) : World K :=
  { w with Sounds := w.Sounds ++ [(Sound, Location)] }

/-- `AUR_Teleporter::GetDesiredRotation`.  The reference parameter
`DesiredRotation` is assigned in both branches before it is read, so it is not
an input here: its final value is what is returned. -/
def GetDesiredRotation (self : AUR_Teleporter K)
    (TargetActorRotation DestinationRotation : FRotator K) : FRotator K :=
  let DesiredRotation : FRotator K :=
    if self.ExitRotationType = EExitRotation.ER_Relative then
      let DesiredRotation := (DestinationRotation.Add TargetActorRotation).Sub self.GetActorRotation
      { DesiredRotation with Yaw := DesiredRotation.Yaw + 180 }
    else
      DestinationRotation
  let DesiredRotation := { DesiredRotation with Yaw := UnwindDegrees DesiredRotation.Yaw }
  let DesiredRotation := { DesiredRotation with Pitch := 0 }
  { DesiredRotation with Roll := 0 }

/-- `AUR_Teleporter::PlayTeleportEffects_Implementation`. -/
def PlayTeleportEffects_Implementation (self : AUR_Teleporter K) (w : World K) :
    Except Fault (World K) :=
  let w :=
    match self.TeleportOutSound with
    | some Sound => PlaySoundAtLocation w Sound self.GetActorLocation
    | none => w
  match self.TeleportInSound with
  | some Sound =>
    match self.DestinationActor with
    | some Destination => .ok (PlaySoundAtLocation w Sound Destination.GetActorLocation)
    | none => .error .NullDereference
  | none => .ok w

/-- `AUR_Teleporter::IsPermittedToTeleport_Implementation`: the result and the
world with the line it may log. -/
def IsPermittedToTeleport_Implementation (TargetActor : Option (AActor K)) (w : World K) :
    Bool × World K :=
  let Character : Bool :=
    match TargetActor with
    | some A => A.IsURCharacter
    | none => false
  if Character = false then
    (false, GAME_LOG w .CharacterInvalid)
  else
    (true, w)

/-- The local `MomentumRotator` of `AUR_Teleporter::PerformTeleport` (lines 175
and 176): destination rotation minus teleporter rotation, component by
component, with the yaw turned by 180 and unwound. -/
def MomentumRotator (self : AUR_Teleporter K) (Destination : AActor K) : FRotator K :=
  let MomentumRotator : FRotator K := Destination.GetActorRotation.Sub self.GetActorRotation
  { MomentumRotator with Yaw := UnwindDegrees (MomentumRotator.Yaw + 180) }

/-- The velocity part of `AUR_Teleporter::PerformTeleport` (from
`if (!bKeepMomentum)` to the end), for a body that is a character
(`TargetCharacter = true`, velocity in its movement component) or not
(velocity in its root component). -/
def TeleportVelocity (M : EngineMath K) (self : AUR_Teleporter K) (Destination : AActor K)
    (DestinationRotation : FRotator K) (TargetCharacter : Bool) (Target : AActor K) : AActor K :=
  if !self.bKeepMomentum then
    if TargetCharacter then
      { Target with Velocity := FVector.ZeroVector }
    else
      { Target with ComponentVelocity := FVector.ZeroVector }
  else
    if self.ExitRotationType = EExitRotation.ER_Relative then
      let MomentumRotator : FRotator K := MomentumRotator self Destination
      if TargetCharacter then
        let NewTargetVelocity := MomentumRotator.RotateVector M Target.Velocity
        { Target with Velocity := NewTargetVelocity }
      else
        let NewTargetVelocity := MomentumRotator.RotateVector M Target.ComponentVelocity
        { Target with ComponentVelocity := NewTargetVelocity }
    else
      if TargetCharacter then
        let NewTargetVelocity :=
          DestinationRotation.RotateVector M (FVector.ForwardVector.Scale (Target.Velocity.Size2D M))
        let NewTargetVelocity := { NewTargetVelocity with Z := Target.Velocity.Z }
        { Target with Velocity := NewTargetVelocity }
      else
        let NewTargetVelocity :=
          DestinationRotation.RotateVector M
            (FVector.ForwardVector.Scale (Target.ComponentVelocity.Size2D M))
        let NewTargetVelocity := { NewTargetVelocity with Z := Target.ComponentVelocity.Z }
        { Target with ComponentVelocity := NewTargetVelocity }

/-- `AUR_Teleporter::PerformTeleport`.  `TargetActor` is the pointer argument
(`none` for `nullptr`); the result is the returned flag, the body behind the
pointer afterwards, and the world. -/
def PerformTeleport (M : EngineMath K) (self : AUR_Teleporter K)
    (TargetActor : Option (AActor K)) (w : World K) :
    Except Fault (Bool × Option (AActor K) × World K) :=
  match self.DestinationActor, TargetActor with
  | none, _ => .ok (false, TargetActor, w)
  | some _, none => .ok (false, TargetActor, w)
  | some Destination, some Target =>
    let TargetCharacter : Bool := Target.IsCharacter
    let DestinationRotation : FRotator K := Destination.GetActorRotation
    -- CharacterController = TargetCharacter->GetController() when TargetCharacter, else nullptr
    let CharacterController : Option (AController K) :=
      if TargetCharacter then Target.Controller else none
    -- TargetActorRotation
    let Read : Except Fault (FRotator K) :=
      if TargetCharacter then
        match CharacterController with
        | some C => .ok C.ControlRotation
        | none => .error .NullDereference
      else
        .ok Target.GetActorRotation
    match Read with
    | .error e => .error e
    | .ok TargetActorRotation =>
      match PlayTeleportEffects_Implementation self w with
      | .error e => .error e
      | .ok w =>
        let Target := Target.SetActorLocation Destination.GetActorLocation
        let DesiredRotation := GetDesiredRotation self TargetActorRotation DestinationRotation
        let Written : Except Fault (AActor K) :=
          if TargetCharacter then
            match CharacterController with
            | some C => .ok { Target with Controller := some (C.SetControlRotation DesiredRotation) }
            | none => .error .NullDereference
          else
            .ok (Target.SetActorRotation DesiredRotation)
        match Written with
        | .error e => .error e
        | .ok Target =>
          .ok (true, some (TeleportVelocity M self Destination DestinationRotation TargetCharacter Target), w)

/-- `AUR_Teleporter::OnTriggerEnter`, with `Other` the overlapping body and
`bFromSweep` the flag of the overlap event; the components, the body index and
the sweep result of the event are not used by the code. -/
def OnTriggerEnter (M : EngineMath K) (self : AUR_Teleporter K) (Other : Option (AActor K))
    (bFromSweep : Bool) (w : World K) : Except Fault (Option (AActor K) × World K) :=
  let isTeleporting : Bool := (bFromSweep == false)
  if isTeleporting then
    .ok (Other, w)
  else
    match IsPermittedToTeleport_Implementation Other w with
    | (true, w) =>
      let w := GAME_LOG w .TeleporterTriggered
      match PerformTeleport M self Other w with
      | .error e => .error e
      | .ok (true, Other, w) => .ok (Other, GAME_LOG w .TeleportedCharacter)
      | .ok (false, Other, w) => .ok (Other, GAME_LOG w .DestinationNotSet)
    | (false, w) => .ok (Other, w)

/-! ## What is observed of a body -/

/-- The velocity `PerformTeleport` reads and writes for a body: that of the
movement component for an `ACharacter`, that of the root component otherwise. -/
def AActor.BodyVelocity (A : AActor K) : FVector K :=
  if A.IsCharacter then A.Velocity else A.ComponentVelocity

/-- The rotation `PerformTeleport` reads (as `TargetActorRotation`) and writes
for a body: the control rotation of its controller for an `ACharacter`, its own
rotation otherwise.  For an `ACharacter` without controller there is nothing to
read; the value is then the `ZeroRotator` that `TargetActorRotation` starts as. -/
def AActor.Facing (A : AActor K) : FRotator K :=
  if A.IsCharacter then
    match A.Controller with
    | some C => C.ControlRotation
    | none => FRotator.ZeroRotator
  else A.GetActorRotation

/-! ## Exact engine mathematics -/

/-- The laws of exact sine, cosine (in degrees) and square root that the
theorems about velocities rely on. -/
structure EngineMath.IsExact (M : EngineMath K) : Prop where
  Sin_zero : M.Sin 0 = 0
  Cos_zero : M.Cos 0 = 1
  Sin_turn : M.Sin 360 = 0
  Cos_turn : M.Cos 360 = 1
  Cos_sq_add_Sin_sq : ∀ a, M.Cos a * M.Cos a + M.Sin a * M.Sin a = 1
  Cos_add : ∀ a b, M.Cos (a + b) = M.Cos a * M.Cos b - M.Sin a * M.Sin b
  Sin_add : ∀ a b, M.Sin (a + b) = M.Sin a * M.Cos b + M.Cos a * M.Sin b
  Sqrt_nonneg : ∀ x, 0 ≤ M.Sqrt x
  Sqrt_mul_self : ∀ x, 0 ≤ x → M.Sqrt (x * x) = x

end Defs

/-- The real sine, cosine (of an angle in degrees) and square root. -/
noncomputable def realMath : EngineMath ℝ where
  Sin := fun a => Real.sin (a * Real.pi / 180)
  Cos := fun a => Real.cos (a * Real.pi / 180)
  Sqrt := Real.sqrt

/-! ## Concrete inputs -/

section Inputs

variable (K : Type) [LinearOrderedField K] [FloorRing K]

/-- A world in which nothing has been played or logged. -/
def emptyWorld : World K := { Sounds := [], Log := [] }

/-- A destination standing upright at (1000, 0, 0), facing yaw 90. -/
def uprightDestination : AActor K :=
  { Class := .Actor, Location := ⟨1000, 0, 0⟩, Rotation := { Pitch := 0, Yaw := 90, Roll := 0 },
    ComponentVelocity := ⟨0, 0, 0⟩, Controller := none, Velocity := ⟨0, 0, 0⟩ }

/-- A destination at (1000, 0, 0) pitched up by a quarter turn. -/
def tiltedDestination : AActor K :=
  { Class := .Actor, Location := ⟨1000, 0, 0⟩, Rotation := { Pitch := 90, Yaw := 0, Roll := 0 },
    ComponentVelocity := ⟨0, 0, 0⟩, Controller := none, Velocity := ⟨0, 0, 0⟩ }

/-- A game character at the origin with a controller looking along yaw 0,
moving at speed 1 along X. -/
def possessedCharacter : AActor K :=
  { Class := .UR_Character, Location := ⟨0, 0, 0⟩, Rotation := ⟨0, 0, 0⟩,
    ComponentVelocity := ⟨0, 0, 0⟩, Controller := some ⟨⟨0, 0, 0⟩⟩, Velocity := ⟨1, 0, 0⟩ }

/-- The same character without a controller (`GetController()` is `nullptr`). -/
def unpossessedCharacter : AActor K :=
  { possessedCharacter K with Controller := none }

/-- A plain actor at the origin moving at speed 1 along X. -/
def crate : AActor K :=
  { Class := .Actor, Location := ⟨0, 0, 0⟩, Rotation := ⟨0, 0, 0⟩,
    ComponentVelocity := ⟨1, 0, 0⟩, Controller := none, Velocity := ⟨0, 0, 0⟩ }

/-- An upright teleporter at the origin, yaw 0, linked to `Destination`. -/
def teleporterTo (Destination : AActor K) (ExitRotationType : EExitRotation)
    (bKeepMomentum : Bool) : AUR_Teleporter K :=
  { AUR_Teleporter.Default ⟨0, 0, 0⟩ ⟨0, 0, 0⟩ with
    DestinationActor := some Destination, ExitRotationType := ExitRotationType,
    bKeepMomentum := bKeepMomentum }

end Inputs

/-! # Theorems -/

section UnwindLemmas

variable {K : Type} [LinearOrderedField K]

/-- The rounds given to a loop of `UnwindDegrees` cover the distance to go. -/
theorem fuel_enough [FloorRing K] (x : K) : x ≤ 360 * ((Int.toNat ⌈x / 360⌉ : Nat) : K) := by
  have h1 : x / 360 ≤ ((⌈x / 360⌉ : Int) : K) := Int.le_ceil _
  have h2 : ((⌈x / 360⌉ : Int) : K) ≤ (((Int.toNat ⌈x / 360⌉ : Nat) : Int) : K) := by
    exact_mod_cast Int.self_le_toNat _
  have h3 : (((Int.toNat ⌈x / 360⌉ : Nat) : Int) : K) = ((Int.toNat ⌈x / 360⌉ : Nat) : K) := by
    push_cast; rfl
  rw [h3] at h2
  have h4 : x / 360 ≤ ((Int.toNat ⌈x / 360⌉ : Nat) : K) := le_trans h1 h2
  have h5 : x / 360 * 360 = x := by field_simp
  nlinarith

/-- The first loop, given enough rounds: it ends at or below 180, having taken
whole turns off; it stays above -180 when it started above 180 and does nothing
when it started at or below 180. -/
theorem unwindDown_spec (n : Nat) : ∀ A : K, A - 180 ≤ 360 * (n : K) →
    unwindDown n A ≤ 180 ∧ (180 < A → -180 < unwindDown n A) ∧
      (A ≤ 180 → unwindDown n A = A) ∧ ∃ k : Nat, unwindDown n A = A - 360 * (k : K) := by
  induction n with
  | zero =>
    intro A h
    simp only [Nat.cast_zero, mul_zero] at h
    refine ⟨by simp only [unwindDown]; linarith, fun h1 => by linarith, fun _ => rfl, 0, by simp [unwindDown]⟩
  | succ n ih =>
    intro A h
    push_cast at h
    by_cases hA : 180 < A
    · have hstep : unwindDown (n + 1) A = unwindDown n (A - 360) := by
        simp only [unwindDown, if_pos hA]
      obtain ⟨h1, h2, h3, k, hk⟩ := ih (A - 360) (by linarith)
      rw [hstep]
      refine ⟨h1, fun _ => ?_, fun h4 => absurd hA (not_lt.mpr h4), k + 1, ?_⟩
      · by_cases h5 : 180 < A - 360
        · exact h2 h5
        · rw [h3 (not_lt.mp h5)]; linarith
      · rw [hk]; push_cast; ring
    · have hstep : unwindDown (n + 1) A = A := by
        simp only [unwindDown, if_neg hA]
      rw [hstep]
      exact ⟨not_lt.mp hA, fun h1 => absurd h1 hA, fun _ => rfl, 0, by simp⟩

/-- The second loop, given enough rounds: it ends at or above -180, having added
whole turns; it stays below 180 when it started below -180 and does nothing
when it started at or above -180. -/
theorem unwindUp_spec (n : Nat) : ∀ A : K, -180 - A ≤ 360 * (n : K) →
    -180 ≤ unwindUp n A ∧ (A < -180 → unwindUp n A < 180) ∧
      (-180 ≤ A → unwindUp n A = A) ∧ ∃ k : Nat, unwindUp n A = A + 360 * (k : K) := by
  induction n with
  | zero =>
    intro A h
    simp only [Nat.cast_zero, mul_zero] at h
    refine ⟨by simp only [unwindUp]; linarith, fun h1 => by linarith, fun _ => rfl, 0, by simp [unwindUp]⟩
  | succ n ih =>
    intro A h
    push_cast at h
    by_cases hA : A < -180
    · have hstep : unwindUp (n + 1) A = unwindUp n (A + 360) := by
        simp only [unwindUp, if_pos hA]
      obtain ⟨h1, h2, h3, k, hk⟩ := ih (A + 360) (by linarith)
      rw [hstep]
      refine ⟨h1, fun _ => ?_, fun h4 => absurd hA (not_lt.mpr h4), k + 1, ?_⟩
      · by_cases h5 : A + 360 < -180
        · exact h2 h5
        · rw [h3 (not_lt.mp h5)]; linarith
      · rw [hk]; push_cast; ring
    · have hstep : unwindUp (n + 1) A = A := by
        simp only [unwindUp, if_neg hA]
      rw [hstep]
      exact ⟨not_lt.mp hA, fun h1 => absurd h1 hA, fun _ => rfl, 0, by simp⟩

/-- The first loop has left within the rounds `UnwindDegrees` gives it. -/
theorem unwindDown_exit [FloorRing K] (A : K) : ¬ 180 < unwindDown (Int.toNat ⌈(A - 180) / 360⌉) A :=
  not_lt.mpr (unwindDown_spec _ A (fuel_enough _)).1

/-- The second loop has left within the rounds `UnwindDegrees` gives it. -/
theorem unwindUp_exit [FloorRing K] (A : K) : ¬ unwindUp (Int.toNat ⌈(-180 - A) / 360⌉) A < -180 :=
  not_lt.mpr (unwindUp_spec _ A (fuel_enough _)).1

/-- What `UnwindDegrees` returns: a value of [-180, 180] that differs from the
argument by a whole number of turns, strictly above -180 when the argument was
above 180, strictly below 180 when it was below -180. -/
theorem UnwindDegrees_spec [FloorRing K] (A : K) :
    -180 ≤ UnwindDegrees A ∧ UnwindDegrees A ≤ 180 ∧
      (180 < A → -180 < UnwindDegrees A) ∧ (A < -180 → UnwindDegrees A < 180) ∧
      ∃ k : Int, UnwindDegrees A = A + 360 * (k : K) := by
  obtain ⟨d1, d2, d3, kd, hkd⟩ := unwindDown_spec (Int.toNat ⌈(A - 180) / 360⌉) A (fuel_enough _)
  obtain ⟨u1, u2, u3, ku, hku⟩ :=
    unwindUp_spec (Int.toNat ⌈(-180 - unwindDown (Int.toNat ⌈(A - 180) / 360⌉) A) / 360⌉)
      (unwindDown (Int.toNat ⌈(A - 180) / 360⌉) A) (fuel_enough _)
  have hU : UnwindDegrees A =
      unwindUp (Int.toNat ⌈(-180 - unwindDown (Int.toNat ⌈(A - 180) / 360⌉) A) / 360⌉)
        (unwindDown (Int.toNat ⌈(A - 180) / 360⌉) A) := rfl
  rw [hU]
  refine ⟨u1, ?_, ?_, ?_, (ku : Int) - (kd : Int), ?_⟩
  · by_cases h : unwindDown (Int.toNat ⌈(A - 180) / 360⌉) A < -180
    · exact le_of_lt (u2 h)
    · rw [u3 (not_lt.mp h)]; exact d1
  · intro h
    have h1 := d2 h
    rw [u3 (le_of_lt h1)]; exact h1
  · intro h
    have h1 := d3 (by linarith)
    rw [h1]
    rw [h1] at u2
    exact u2 h
  · rw [hku, hkd]; push_cast; ring

/-- Two angles a whole number of turns apart and less than a turn apart are equal. -/
theorem eq_of_turns_apart {x y : K} {k : Int} (h : x = y + 360 * (k : K))
    (hne : x - y < 360) (hne2 : y - x < 360) : x = y := by
  have h1 : (k : K) < 1 := by
    by_contra hc
    have : (1 : K) ≤ (k : K) := not_lt.mp hc
    linarith
  have h2 : (-1 : K) < (k : K) := by
    by_contra hc
    have : (k : K) ≤ -1 := not_lt.mp hc
    linarith
  have h3 : k < 1 := by exact_mod_cast h1
  have h4 : -1 < k := by exact_mod_cast h2
  have h5 : k = 0 := by omega
  rw [h, h5]; simp

/-- An angle of [-180, 180] is returned as it is. -/
theorem UnwindDegrees_of_mem [FloorRing K] {A : K} (h1 : -180 ≤ A) (h2 : A ≤ 180) : UnwindDegrees A = A := by
  have hd := (unwindDown_spec (Int.toNat ⌈(A - 180) / 360⌉) A (fuel_enough _)).2.2.1 h2
  have hU : UnwindDegrees A =
      unwindUp (Int.toNat ⌈(-180 - unwindDown (Int.toNat ⌈(A - 180) / 360⌉) A) / 360⌉)
        (unwindDown (Int.toNat ⌈(A - 180) / 360⌉) A) := rfl
  rw [hU, hd]
  exact (unwindUp_spec _ A (fuel_enough _)).2.2.1 h1

/-- One round of the first loop: above 180 the result is that of the angle one turn lower. -/
theorem UnwindDegrees_sub [FloorRing K] {A : K} (h : 180 < A) : UnwindDegrees A = UnwindDegrees (A - 360) := by
  obtain ⟨a1, a2, a3, _, ka, hka⟩ := UnwindDegrees_spec A
  obtain ⟨b1, b2, b3, _, kb, hkb⟩ := UnwindDegrees_spec (A - 360)
  have a4 := a3 h
  have hb : -180 < UnwindDegrees (A - 360) := by
    by_cases h5 : 180 < A - 360
    · exact b3 h5
    · rw [UnwindDegrees_of_mem (by linarith) (not_lt.mp h5)]; linarith
  have hk : UnwindDegrees A = UnwindDegrees (A - 360) + 360 * ((ka - kb + 1 : Int) : K) := by
    push_cast; linarith
  exact eq_of_turns_apart hk (by linarith) (by linarith)

/-- One round of the second loop: below -180 the result is that of the angle one turn higher. -/
theorem UnwindDegrees_add [FloorRing K] {A : K} (h : A < -180) : UnwindDegrees A = UnwindDegrees (A + 360) := by
  obtain ⟨a1, a2, _, a3, ka, hka⟩ := UnwindDegrees_spec A
  obtain ⟨b1, b2, _, b3, kb, hkb⟩ := UnwindDegrees_spec (A + 360)
  have a4 := a3 h
  have hb : UnwindDegrees (A + 360) < 180 := by
    by_cases h5 : A + 360 < -180
    · exact b3 h5
    · rw [UnwindDegrees_of_mem (not_lt.mp h5) (by linarith)]; linarith
  have hk : UnwindDegrees A = UnwindDegrees (A + 360) + 360 * ((ka - kb - 1 : Int) : K) := by
    push_cast; linarith
  exact eq_of_turns_apart hk (by linarith) (by linarith)

end UnwindLemmas

/-! ## `PerformTeleport`, case by case -/

/-- With a destination, the sound cues cannot fault and leave the log alone. -/
theorem PlayTeleportEffects_ok {K : Type} (self : AUR_Teleporter K) (D : AActor K) (w : World K)
    (hD : self.DestinationActor = some D) :
    ∃ w1 : World K, PlayTeleportEffects_Implementation self w = .ok w1 ∧ w1.Log = w.Log := by
  unfold PlayTeleportEffects_Implementation
  rw [hD]
  cases hO : self.TeleportOutSound <;> cases hI : self.TeleportInSound <;>
    simp [PlaySoundAtLocation]

section ExactLemmas

variable {K : Type} [LinearOrderedField K]

/-- A rotator of pitch 0 and roll 0 turns a vector about the vertical axis. -/
theorem RotateVector_yaw_only {M : EngineMath K} (hM : M.IsExact) (Yaw : K) (V : FVector K) :
    FRotator.RotateVector M { Pitch := 0, Yaw := Yaw, Roll := 0 } V =
      ⟨V.X * M.Cos Yaw - V.Y * M.Sin Yaw, V.X * M.Sin Yaw + V.Y * M.Cos Yaw, V.Z⟩ := by
  simp only [FRotator.RotateVector, hM.Sin_zero, hM.Cos_zero, FVector.mk.injEq]
  refine ⟨by ring, by ring, by ring⟩

/-- Exact sine and cosine do not change over whole turns. -/
theorem IsExact_turns {M : EngineMath K} (hM : M.IsExact) (a : K) (k : Int) :
    M.Cos (a + 360 * (k : K)) = M.Cos a ∧ M.Sin (a + 360 * (k : K)) = M.Sin a := by
  have step : ∀ b : K, M.Cos (b + 360) = M.Cos b ∧ M.Sin (b + 360) = M.Sin b := by
    intro b
    rw [hM.Cos_add, hM.Sin_add, hM.Cos_turn, hM.Sin_turn]
    constructor <;> ring
  have nat : ∀ (n : Nat) (b : K),
      M.Cos (b + 360 * (n : K)) = M.Cos b ∧ M.Sin (b + 360 * (n : K)) = M.Sin b := by
    intro n
    induction n with
    | zero => intro b; simp
    | succ n ih =>
      intro b
      have h1 : b + 360 * ((n + 1 : Nat) : K) = (b + 360 * (n : K)) + 360 := by
        push_cast; ring
      rw [h1, (step _).1, (step _).2]
      exact ih b
  obtain ⟨n, rfl | rfl⟩ := Int.eq_nat_or_neg k
  · have := nat n a
    simpa using this
  · have := nat n (a + 360 * ((-(n : Int) : Int) : K))
    have h2 : a + 360 * ((-(n : Int) : Int) : K) + 360 * (n : K) = a := by
      push_cast; ring
    rw [h2] at this
    exact ⟨this.1.symm, this.2.symm⟩

end ExactLemmas

section TeleportLemmas

variable {K : Type} [LinearOrderedField K] [FloorRing K]

/-- No destination: `PerformTeleport` returns false at once. -/
theorem PerformTeleport_unset (M : EngineMath K) (self : AUR_Teleporter K)
    (TargetActor : Option (AActor K)) (w : World K) (hD : self.DestinationActor = none) :
    PerformTeleport M self TargetActor w = .ok (false, TargetActor, w) := by
  unfold PerformTeleport
  rw [hD]

/-- A body that is not an `ACharacter`: its own rotation is read and written. -/
theorem PerformTeleport_plain (M : EngineMath K) (self : AUR_Teleporter K) (D T : AActor K)
    (w : World K) (hD : self.DestinationActor = some D) (hT : T.IsCharacter = false) :
    ∃ w1 : World K, w1.Log = w.Log ∧ PerformTeleport M self (some T) w =
      .ok (true, some (TeleportVelocity M self D D.Rotation false
        { T with Location := D.Location,
                 Rotation := GetDesiredRotation self T.Rotation D.Rotation }), w1) := by
  obtain ⟨w1, h1, h2⟩ := PlayTeleportEffects_ok self D w hD
  refine ⟨w1, h2, ?_⟩
  unfold PerformTeleport
  rw [hD]
  simp only [hT, h1, AActor.GetActorRotation, AActor.GetActorLocation, AActor.SetActorLocation,
    AActor.SetActorRotation]
  rfl

/-- An `ACharacter` with a controller: the control rotation is read and written. -/
theorem PerformTeleport_character (M : EngineMath K) (self : AUR_Teleporter K) (D T : AActor K)
    (C : AController K) (w : World K) (hD : self.DestinationActor = some D)
    (hT : T.IsCharacter = true) (hC : T.Controller = some C) :
    ∃ w1 : World K, w1.Log = w.Log ∧ PerformTeleport M self (some T) w =
      .ok (true, some (TeleportVelocity M self D D.Rotation true
        { T with Location := D.Location,
                 Controller := some ⟨GetDesiredRotation self C.ControlRotation D.Rotation⟩ }),
        w1) := by
  obtain ⟨w1, h1, h2⟩ := PlayTeleportEffects_ok self D w hD
  refine ⟨w1, h2, ?_⟩
  unfold PerformTeleport
  rw [hD]
  simp only [hT, hC, h1, AActor.GetActorRotation, AActor.GetActorLocation,
    AActor.SetActorLocation, AController.SetControlRotation]
  rfl

/-- An `ACharacter` without a controller: line 132 dereferences the null
`CharacterController`. -/
theorem PerformTeleport_no_controller (M : EngineMath K) (self : AUR_Teleporter K)
    (D T : AActor K) (w : World K) (hD : self.DestinationActor = some D)
    (hT : T.IsCharacter = true) (hC : T.Controller = none) :
    PerformTeleport M self (some T) w = .error Fault.NullDereference := by
  unfold PerformTeleport
  rw [hD]
  simp only [hT, hC]
  rfl

/-- What the velocity part leaves in the body: the velocity it wrote, and
everything else as it was. -/
theorem TeleportVelocity_body (M : EngineMath K) (self : AUR_Teleporter K) (D T : AActor K)
    (DR : FRotator K) :
    (TeleportVelocity M self D DR T.IsCharacter T).Class = T.Class ∧
    (TeleportVelocity M self D DR T.IsCharacter T).Location = T.Location ∧
    (TeleportVelocity M self D DR T.IsCharacter T).Rotation = T.Rotation ∧
    (TeleportVelocity M self D DR T.IsCharacter T).Controller = T.Controller ∧
    (TeleportVelocity M self D DR T.IsCharacter T).BodyVelocity =
      if self.bKeepMomentum = false then FVector.ZeroVector
      else if self.ExitRotationType = EExitRotation.ER_Relative then
        (MomentumRotator self D).RotateVector M T.BodyVelocity
      else
        { DR.RotateVector M (FVector.ForwardVector.Scale (T.BodyVelocity.Size2D M)) with
          Z := T.BodyVelocity.Z } := by
  cases hk : self.bKeepMomentum <;> cases hc : T.IsCharacter <;>
    by_cases hr : self.ExitRotationType = EExitRotation.ER_Relative <;>
    simp [TeleportVelocity, AActor.BodyVelocity, AActor.IsCharacter, hk, hr] <;>
    simp [AActor.IsCharacter] at hc <;> simp [hc]

/-- With a destination and a body whose orientation can be read (not an
`ACharacter`, or one with a controller), `PerformTeleport` returns true; the
body is at the destination, faces the desired rotation, and has the velocity
the velocity part wrote. -/
theorem PerformTeleport_body (M : EngineMath K) (self : AUR_Teleporter K) (D T : AActor K)
    (w : World K) (hD : self.DestinationActor = some D)
    (hC : T.IsCharacter = true → T.Controller.isSome = true) :
    ∃ (T1 : AActor K) (w1 : World K),
      PerformTeleport M self (some T) w = .ok (true, some T1, w1) ∧
      w1.Log = w.Log ∧ T1.Class = T.Class ∧ T1.Location = D.Location ∧
      T1.Facing = GetDesiredRotation self T.Facing D.Rotation ∧
      T1.BodyVelocity =
        if self.bKeepMomentum = false then FVector.ZeroVector
        else if self.ExitRotationType = EExitRotation.ER_Relative then
          (MomentumRotator self D).RotateVector M T.BodyVelocity
        else
          { D.Rotation.RotateVector M (FVector.ForwardVector.Scale (T.BodyVelocity.Size2D M)) with
            Z := T.BodyVelocity.Z } := by
  cases hT : T.IsCharacter with
  | false =>
    obtain ⟨w1, hw, hP⟩ := PerformTeleport_plain M self D T w hD hT
    have hB := TeleportVelocity_body M self D
      ⟨T.Class, D.Location, GetDesiredRotation self T.Rotation D.Rotation, T.ComponentVelocity,
        T.Controller, T.Velocity⟩ D.Rotation
    have hT0 : AActor.IsCharacter (K := K)
        ⟨T.Class, D.Location, GetDesiredRotation self T.Rotation D.Rotation, T.ComponentVelocity,
          T.Controller, T.Velocity⟩ = false := hT
    rw [hT0] at hB
    obtain ⟨b1, b2, b3, b4, b5⟩ := hB
    refine ⟨_, w1, hP, hw, b1, b2, ?_, ?_⟩
    · have hc1 : (TeleportVelocity M self D D.Rotation false
          ⟨T.Class, D.Location, GetDesiredRotation self T.Rotation D.Rotation,
            T.ComponentVelocity, T.Controller, T.Velocity⟩).IsCharacter = false := by
        simp only [AActor.IsCharacter, b1] at hT ⊢
        exact hT
      simp only [AActor.Facing, hc1, hT, AActor.GetActorRotation, b3]
      rfl
    · rw [b5]
      simp only [AActor.BodyVelocity, hT, hT0]
  | true =>
    have hsome := hC hT
    obtain ⟨C, hCtl⟩ := Option.isSome_iff_exists.mp hsome
    obtain ⟨w1, hw, hP⟩ := PerformTeleport_character M self D T C w hD hT hCtl
    have hB := TeleportVelocity_body M self D
      ⟨T.Class, D.Location, T.Rotation, T.ComponentVelocity,
        some ⟨GetDesiredRotation self C.ControlRotation D.Rotation⟩, T.Velocity⟩ D.Rotation
    have hT0 : AActor.IsCharacter (K := K)
        ⟨T.Class, D.Location, T.Rotation, T.ComponentVelocity,
          some ⟨GetDesiredRotation self C.ControlRotation D.Rotation⟩, T.Velocity⟩ = true := hT
    rw [hT0] at hB
    obtain ⟨b1, b2, b3, b4, b5⟩ := hB
    refine ⟨_, w1, hP, hw, b1, b2, ?_, ?_⟩
    · have hc1 : (TeleportVelocity M self D D.Rotation true
          ⟨T.Class, D.Location, T.Rotation, T.ComponentVelocity,
            some ⟨GetDesiredRotation self C.ControlRotation D.Rotation⟩,
            T.Velocity⟩).IsCharacter = true := by
        simp only [AActor.IsCharacter, b1] at hT ⊢
        exact hT
      simp only [AActor.Facing, hc1, hT, b4, hCtl]
      rfl
    · rw [b5]
      simp only [AActor.BodyVelocity, hT, hT0]

/-- The facing under the Relative policy. -/
theorem GetDesiredRotation_relative (self : AUR_Teleporter K) (T D : FRotator K)
    (h : self.ExitRotationType = EExitRotation.ER_Relative) :
    GetDesiredRotation self T D =
      { Pitch := 0, Yaw := UnwindDegrees (D.Yaw + T.Yaw - self.Rotation.Yaw + 180), Roll := 0 } := by
  simp only [GetDesiredRotation, h, if_true, FRotator.Add, FRotator.Sub,
    AUR_Teleporter.GetActorRotation]

/-- The rotator of the Relative momentum branch, field by field. -/
theorem MomentumRotator_eq (self : AUR_Teleporter K) (D : AActor K) :
    MomentumRotator self D =
      { Pitch := D.Rotation.Pitch - self.Rotation.Pitch,
        Yaw := UnwindDegrees (D.Rotation.Yaw - self.Rotation.Yaw + 180),
        Roll := D.Rotation.Roll - self.Rotation.Roll } := rfl

/-- `PerformTeleport` with momentum kept under the Relative policy. -/
theorem PerformTeleport_relative (M : EngineMath K) (hM : M.IsExact) (self : AUR_Teleporter K)
    (D T : AActor K) (w : World K) (hD : self.DestinationActor = some D)
    (hK : self.bKeepMomentum = true) (hR : self.ExitRotationType = EExitRotation.ER_Relative)
    (hC : T.IsCharacter = true → T.Controller.isSome = true) :
    ∃ (T1 : AActor K) (w1 : World K),
      PerformTeleport M self (some T) w = .ok (true, some T1, w1) ∧
      T1.Facing = GetDesiredRotation self T.Facing D.Rotation ∧
      T1.BodyVelocity =
        FRotator.RotateVector M
          { Pitch := D.Rotation.Pitch - self.Rotation.Pitch,
            Yaw := UnwindDegrees (D.Rotation.Yaw - self.Rotation.Yaw + 180),
            Roll := D.Rotation.Roll - self.Rotation.Roll } T.BodyVelocity ∧
      (D.Rotation.Pitch = self.Rotation.Pitch → D.Rotation.Roll = self.Rotation.Roll →
        T1.BodyVelocity =
          ⟨T.BodyVelocity.X * M.Cos (UnwindDegrees (D.Rotation.Yaw - self.Rotation.Yaw + 180)) -
             T.BodyVelocity.Y * M.Sin (UnwindDegrees (D.Rotation.Yaw - self.Rotation.Yaw + 180)),
           T.BodyVelocity.X * M.Sin (UnwindDegrees (D.Rotation.Yaw - self.Rotation.Yaw + 180)) +
             T.BodyVelocity.Y * M.Cos (UnwindDegrees (D.Rotation.Yaw - self.Rotation.Yaw + 180)),
           T.BodyVelocity.Z⟩) := by
  obtain ⟨T1, w1, hP, _, _, _, hF, hV⟩ := PerformTeleport_body M self D T w hD hC
  have hV1 : T1.BodyVelocity = (MomentumRotator self D).RotateVector M T.BodyVelocity := by
    rw [hV]
    simp [hK, hR]
  rw [MomentumRotator_eq] at hV1
  refine ⟨T1, w1, hP, hF, hV1, ?_⟩
  intro hp hr
  rw [hV1, hp, hr, sub_self, sub_self]
  exact RotateVector_yaw_only hM _ _

end TeleportLemmas

/-! ## The real functions are exact -/

theorem realMath_isExact : realMath.IsExact where
  Sin_zero := by simp [realMath]
  Cos_zero := by simp [realMath]
  Sin_turn := by
    show Real.sin (360 * Real.pi / 180) = 0
    rw [show (360 : ℝ) * Real.pi / 180 = 2 * Real.pi by ring]
    exact Real.sin_two_pi
  Cos_turn := by
    show Real.cos (360 * Real.pi / 180) = 1
    rw [show (360 : ℝ) * Real.pi / 180 = 2 * Real.pi by ring]
    exact Real.cos_two_pi
  Cos_sq_add_Sin_sq := by
    intro a
    show Real.cos (a * Real.pi / 180) * Real.cos (a * Real.pi / 180) +
      Real.sin (a * Real.pi / 180) * Real.sin (a * Real.pi / 180) = 1
    have h := Real.cos_sq_add_sin_sq (a * Real.pi / 180)
    nlinarith [h]
  Cos_add := by
    intro a b
    show Real.cos ((a + b) * Real.pi / 180) = _
    rw [show (a + b) * Real.pi / 180 = a * Real.pi / 180 + b * Real.pi / 180 by ring]
    exact Real.cos_add _ _
  Sin_add := by
    intro a b
    show Real.sin ((a + b) * Real.pi / 180) = _
    rw [show (a + b) * Real.pi / 180 = a * Real.pi / 180 + b * Real.pi / 180 by ring]
    exact Real.sin_add _ _
  Sqrt_nonneg := fun x => Real.sqrt_nonneg x
  Sqrt_mul_self := fun x hx => Real.sqrt_mul_self hx

theorem realMath_Sin_90 : realMath.Sin 90 = 1 := by
  show Real.sin (90 * Real.pi / 180) = 1
  rw [show (90 : ℝ) * Real.pi / 180 = Real.pi / 2 by ring]
  exact Real.sin_pi_div_two

theorem realMath_Cos_90 : realMath.Cos 90 = 0 := by
  show Real.cos (90 * Real.pi / 180) = 0
  rw [show (90 : ℝ) * Real.pi / 180 = Real.pi / 2 by ring]
  exact Real.cos_pi_div_two

/-! ## Claims about the guard and the trigger -/

section Claims

variable {K : Type} [LinearOrderedField K] [FloorRing K]

/-- C1: for every teleporter whose `DestinationActor` is unset and every target
(null, plain actor or character, with or without controller), `PerformTeleport`
returns false and the body behind the pointer, the sounds played and the log
are exactly what they were. -/
theorem C1_unset_destination_aborts (M : EngineMath K) (self : AUR_Teleporter K)
    (TargetActor : Option (AActor K)) (w : World K) (hD : self.DestinationActor = none) :
    PerformTeleport M self TargetActor w = .ok (false, TargetActor, w) :=
  PerformTeleport_unset M self TargetActor w hD

/-- C1 at the teleporter as constructed (no destination) and a moving character. -/
theorem C1_unset_destination_aborts_witness :
    PerformTeleport realMath (AUR_Teleporter.Default ⟨0, 0, 0⟩ ⟨0, 0, 0⟩)
      (some (possessedCharacter ℝ)) (emptyWorld ℝ) =
      .ok (false, some (possessedCharacter ℝ), emptyWorld ℝ) :=
  C1_unset_destination_aborts realMath _ _ _ rfl

/-- C2 as stated fails: for a permitted character and a linked teleporter, the
event with the from-sweep flag true is not ignored (the trigger is logged and
the body is moved to the destination), and the event with the flag false is
ignored although the body passes the eligibility check. -/
theorem C2_sweep_flag_counterexample :
    (IsPermittedToTeleport_Implementation (some (possessedCharacter ℝ)) (emptyWorld ℝ)).1 = true ∧
    (∃ b w1, OnTriggerEnter realMath (teleporterTo ℝ (uprightDestination ℝ) .ER_Fixed false)
        (some (possessedCharacter ℝ)) true (emptyWorld ℝ) = .ok (some b, w1) ∧
      b.Location.X = 1000 ∧ (possessedCharacter ℝ).Location.X = 0 ∧
      w1.Log = [.TeleporterTriggered, .TeleportedCharacter]) ∧
    OnTriggerEnter realMath (teleporterTo ℝ (uprightDestination ℝ) .ER_Fixed false)
        (some (possessedCharacter ℝ)) false (emptyWorld ℝ) =
      .ok (some (possessedCharacter ℝ), emptyWorld ℝ) := by
  refine ⟨rfl, ?_, rfl⟩
  obtain ⟨w1, h0, h1⟩ := PerformTeleport_character realMath
    (teleporterTo ℝ (uprightDestination ℝ) .ER_Fixed false) (uprightDestination ℝ)
    (possessedCharacter ℝ) ⟨⟨0, 0, 0⟩⟩ (GAME_LOG (emptyWorld ℝ) .TeleporterTriggered) rfl rfl rfl
  have hperm : IsPermittedToTeleport_Implementation (some (possessedCharacter ℝ)) (emptyWorld ℝ) =
      (true, emptyWorld ℝ) := rfl
  have hrun : OnTriggerEnter realMath (teleporterTo ℝ (uprightDestination ℝ) .ER_Fixed false)
      (some (possessedCharacter ℝ)) true (emptyWorld ℝ) =
      (PerformTeleport realMath (teleporterTo ℝ (uprightDestination ℝ) .ER_Fixed false)
        (some (possessedCharacter ℝ)) (GAME_LOG (emptyWorld ℝ) .TeleporterTriggered)).map
          (fun r => (r.2.1, GAME_LOG r.2.2 .TeleportedCharacter)) := by
    unfold OnTriggerEnter
    simp only [hperm, h1]
    rfl
  rw [h1] at hrun
  refine ⟨_, _, hrun, rfl, rfl, ?_⟩
  simp only [GAME_LOG, h0]
  rfl

/-- C2, amended: `OnTriggerEnter` ignores the event (nothing is checked, logged,
played or moved) when the from-sweep flag is false; when the flag is true and
the body passes `IsPermittedToTeleport` it logs the trigger, calls
`PerformTeleport` on that body and logs the outcome; when the flag is true and
the body does not pass, only the rejection is logged. -/
theorem C2_trigger_handler (M : EngineMath K) (self : AUR_Teleporter K)
    (Other : Option (AActor K)) (w : World K) :
    OnTriggerEnter M self Other false w = .ok (Other, w) ∧
    ((IsPermittedToTeleport_Implementation Other w).1 = true →
      OnTriggerEnter M self Other true w =
        (PerformTeleport M self Other (GAME_LOG w .TeleporterTriggered)).map
          (fun r => (r.2.1, GAME_LOG r.2.2
            (if r.1 = true then LogLine.TeleportedCharacter else LogLine.DestinationNotSet)))) ∧
    ((IsPermittedToTeleport_Implementation Other w).1 = false →
      OnTriggerEnter M self Other true w = .ok (Other, GAME_LOG w .CharacterInvalid)) := by
  refine ⟨rfl, ?_, ?_⟩
  · intro h
    have hperm : IsPermittedToTeleport_Implementation Other w = (true, w) := by
      unfold IsPermittedToTeleport_Implementation at h ⊢
      cases Other with
      | none => simp at h
      | some A => cases hA : A.IsURCharacter <;> simp [hA] at h ⊢
    unfold OnTriggerEnter
    simp only [hperm]
    cases hP : PerformTeleport M self Other (GAME_LOG w .TeleporterTriggered) with
    | error e => rfl
    | ok r =>
      obtain ⟨b, a, w1⟩ := r
      cases b <;> rfl
  · intro h
    have hperm : IsPermittedToTeleport_Implementation Other w =
        (false, GAME_LOG w .CharacterInvalid) := by
      unfold IsPermittedToTeleport_Implementation at h ⊢
      cases Other with
      | none => simp
      | some A => cases hA : A.IsURCharacter <;> simp [hA] at h ⊢
    unfold OnTriggerEnter
    simp only [hperm]
    rfl

/-- C2, amended, at a permitted character and a linked teleporter. -/
theorem C2_trigger_handler_witness :
    OnTriggerEnter realMath (teleporterTo ℝ (uprightDestination ℝ) .ER_Fixed false)
      (some (possessedCharacter ℝ)) true (emptyWorld ℝ) =
    (PerformTeleport realMath (teleporterTo ℝ (uprightDestination ℝ) .ER_Fixed false)
      (some (possessedCharacter ℝ)) (GAME_LOG (emptyWorld ℝ) .TeleporterTriggered)).map
        (fun r => (r.2.1, GAME_LOG r.2.2
          (if r.1 = true then LogLine.TeleportedCharacter else LogLine.DestinationNotSet))) :=
  (C2_trigger_handler realMath _ _ _).2.1 rfl

/-! ## Claims about the facing -/

/-- C3: under the Relative policy `GetDesiredRotation` yields pitch 0, roll 0
and yaw `unwind(destination.yaw + traveler.yaw - teleporter.yaw + 180)`; when
the teleporter's orientation equals the destination's the yaw is
`unwind(traveler.yaw + 180)`; for teleporter yaw 0, destination yaw 90 and
traveler yaw 0 the yaw is -90. -/
theorem C3_relative_facing (self : AUR_Teleporter K) (T D : FRotator K)
    (h : self.ExitRotationType = EExitRotation.ER_Relative) :
    GetDesiredRotation self T D =
      { Pitch := 0, Yaw := UnwindDegrees (D.Yaw + T.Yaw - self.Rotation.Yaw + 180), Roll := 0 } ∧
    (self.Rotation = D → (GetDesiredRotation self T D).Yaw = UnwindDegrees (T.Yaw + 180)) ∧
    (self.Rotation.Yaw = 0 → D.Yaw = 90 → T.Yaw = 0 → (GetDesiredRotation self T D).Yaw = -90) := by
  have h1 := GetDesiredRotation_relative self T D h
  refine ⟨h1, ?_, ?_⟩
  · intro h2
    rw [h1, h2]
    show UnwindDegrees (D.Yaw + T.Yaw - D.Yaw + 180) = UnwindDegrees (T.Yaw + 180)
    congr 1
    ring
  · intro h2 h3 h4
    rw [h1, h2, h3, h4]
    show UnwindDegrees ((90 : K) + 0 - 0 + 180) = -90
    rw [UnwindDegrees_sub (by norm_num), UnwindDegrees_of_mem (by norm_num) (by norm_num)]
    norm_num

/-- C3 at the scenario: teleporter yaw 0, destination yaw 90, traveler yaw 0. -/
theorem C3_relative_facing_witness :
    (GetDesiredRotation (teleporterTo ℚ (uprightDestination ℚ) .ER_Relative true)
      { Pitch := 0, Yaw := 0, Roll := 0 } { Pitch := 0, Yaw := 90, Roll := 0 }).Yaw = -90 :=
  (C3_relative_facing (teleporterTo ℚ (uprightDestination ℚ) .ER_Relative true)
    { Pitch := 0, Yaw := 0, Roll := 0 } { Pitch := 0, Yaw := 90, Roll := 0 } rfl).2.2 rfl rfl rfl

/-- C4: under the Fixed policy `GetDesiredRotation` yields pitch 0, roll 0 and
yaw `unwind(destination.yaw)`, the same for every traveler orientation and every
teleporter orientation. -/
theorem C4_fixed_facing (self : AUR_Teleporter K) (T D : FRotator K)
    (h : self.ExitRotationType = EExitRotation.ER_Fixed) :
    GetDesiredRotation self T D = { Pitch := 0, Yaw := UnwindDegrees D.Yaw, Roll := 0 } ∧
    ∀ (self2 : AUR_Teleporter K) (T2 : FRotator K),
      self2.ExitRotationType = EExitRotation.ER_Fixed →
      GetDesiredRotation self2 T2 D = GetDesiredRotation self T D := by
  have key : ∀ (s : AUR_Teleporter K) (R : FRotator K),
      s.ExitRotationType = EExitRotation.ER_Fixed →
      GetDesiredRotation s R D = { Pitch := 0, Yaw := UnwindDegrees D.Yaw, Roll := 0 } := by
    intro s R hs
    simp [GetDesiredRotation, hs]
  exact ⟨key self T h, fun s R hs => by rw [key s R hs, key self T h]⟩

/-- C4 at a destination of yaw 90 and a traveler looking along yaw 45 with pitch 30. -/
theorem C4_fixed_facing_witness :
    GetDesiredRotation (teleporterTo ℚ (uprightDestination ℚ) .ER_Fixed true)
      { Pitch := 30, Yaw := 45, Roll := 0 } { Pitch := 0, Yaw := 90, Roll := 0 } =
      { Pitch := 0, Yaw := UnwindDegrees 90, Roll := 0 } :=
  (C4_fixed_facing (teleporterTo ℚ (uprightDestination ℚ) .ER_Fixed true)
    { Pitch := 30, Yaw := 45, Roll := 0 } { Pitch := 0, Yaw := 90, Roll := 0 } rfl).1

/-- C9 as stated fails at -180: the loops leave -180 as it is, so the result is
not above -180; a destination of yaw -180 under the Fixed policy gives the
facing yaw -180, and a destination of yaw -180 seen from a teleporter of yaw
180 gives the momentum yaw -180. -/
theorem C9_unwind_open_end_counterexample :
    UnwindDegrees (-180 : ℚ) = -180 ∧ ¬ (-180 < UnwindDegrees (-180 : ℚ)) ∧
    (GetDesiredRotation (teleporterTo ℚ (uprightDestination ℚ) .ER_Fixed true)
      { Pitch := 0, Yaw := 0, Roll := 0 } { Pitch := 0, Yaw := -180, Roll := 0 }).Yaw = -180 ∧
    (MomentumRotator
      { teleporterTo ℚ (uprightDestination ℚ) .ER_Relative true with
        Rotation := { Pitch := 0, Yaw := 180, Roll := 0 } }
      { uprightDestination ℚ with Rotation := { Pitch := 0, Yaw := -180, Roll := 0 } }).Yaw
      = -180 := by
  have h : UnwindDegrees (-180 : ℚ) = -180 :=
    UnwindDegrees_of_mem (by norm_num) (by norm_num)
  refine ⟨h, by rw [h]; norm_num, ?_, ?_⟩
  · show UnwindDegrees (-180 : ℚ) = -180
    exact h
  · show UnwindDegrees ((-180 : ℚ) - 180 + 180) = -180
    rw [show ((-180 : ℚ) - 180 + 180) = -180 by norm_num]
    exact h

/-- C9, amended: unwinding is idempotent and its result lies in the closed
interval [-180, 180]; so does every yaw produced by `GetDesiredRotation` and
every momentum yaw. -/
theorem C9_unwind_range (x : K) (self : AUR_Teleporter K) (T D : FRotator K)
    (Destination : AActor K) :
    UnwindDegrees (UnwindDegrees x) = UnwindDegrees x ∧
    (-180 ≤ UnwindDegrees x ∧ UnwindDegrees x ≤ 180) ∧
    (-180 ≤ (GetDesiredRotation self T D).Yaw ∧ (GetDesiredRotation self T D).Yaw ≤ 180) ∧
    (-180 ≤ (MomentumRotator self Destination).Yaw ∧
      (MomentumRotator self Destination).Yaw ≤ 180) := by
  have hr : ∀ y : K, -180 ≤ UnwindDegrees y ∧ UnwindDegrees y ≤ 180 :=
    fun y => ⟨(UnwindDegrees_spec y).1, (UnwindDegrees_spec y).2.1⟩
  refine ⟨UnwindDegrees_of_mem (hr x).1 (hr x).2, hr x, ?_, hr _⟩
  simp only [GetDesiredRotation]
  exact hr _

/-! ## Claims about the velocity -/

/-- C7: with a destination and the momentum flag off, for every policy, every
orientation of teleporter, destination and traveler and every velocity, the
velocity `PerformTeleport` writes (movement velocity of a character, root
velocity of any other body) is the zero vector: whenever the call returns, it
returns true with that velocity zero, and it does return for every traveler
whose orientation can be read (not a character, or a character with a
controller). -/
theorem C7_momentum_discarded (M : EngineMath K) (self : AUR_Teleporter K) (D T : AActor K)
    (w : World K) (hD : self.DestinationActor = some D) (hK : self.bKeepMomentum = false) :
    (∀ (r : Bool) (A : Option (AActor K)) (w1 : World K),
      PerformTeleport M self (some T) w = .ok (r, A, w1) →
      r = true ∧ ∃ T1 : AActor K, A = some T1 ∧ T1.BodyVelocity = FVector.ZeroVector) ∧
    ((T.IsCharacter = true → T.Controller.isSome = true) →
      ∃ (T1 : AActor K) (w1 : World K),
        PerformTeleport M self (some T) w = .ok (true, some T1, w1) ∧
        T1.BodyVelocity = FVector.ZeroVector) := by
  have main : (T.IsCharacter = true → T.Controller.isSome = true) →
      ∃ (T1 : AActor K) (w1 : World K),
        PerformTeleport M self (some T) w = .ok (true, some T1, w1) ∧
        T1.BodyVelocity = FVector.ZeroVector := by
    intro hC
    obtain ⟨T1, w1, hP, _, _, _, _, hV⟩ := PerformTeleport_body M self D T w hD hC
    exact ⟨T1, w1, hP, by rw [hV, if_pos hK]⟩
  refine ⟨?_, main⟩
  intro r A w1 hr
  by_cases hC : T.IsCharacter = true → T.Controller.isSome = true
  · obtain ⟨T1, w2, hP, hV⟩ := main hC
    rw [hP] at hr
    simp only [Except.ok.injEq, Prod.mk.injEq] at hr
    exact ⟨hr.1.symm, T1, hr.2.1.symm, hV⟩
  · have h1 : T.IsCharacter = true := by
      by_contra hn
      exact hC (fun h => absurd h hn)
    have h2 : T.Controller = none := by
      cases hc : T.Controller with
      | none => rfl
      | some C => exact absurd (fun _ => by simp [hc]) hC
    rw [PerformTeleport_no_controller M self D T w hD h1 h2] at hr
    exact absurd hr (by simp)

/-- C7 at a character moving at speed 1, under the Relative policy. -/
theorem C7_momentum_discarded_witness :
    ∃ (T1 : AActor ℝ) (w1 : World ℝ),
      PerformTeleport realMath (teleporterTo ℝ (uprightDestination ℝ) .ER_Relative false)
        (some (possessedCharacter ℝ)) (emptyWorld ℝ) = .ok (true, some T1, w1) ∧
      T1.BodyVelocity = FVector.ZeroVector :=
  (C7_momentum_discarded realMath _ (uprightDestination ℝ) (possessedCharacter ℝ) _ rfl rfl).2
    (fun _ => rfl)

/-- C8 fails on the code for a character without controller: with a destination
set, `PerformTeleport` dereferences the null `CharacterController`, and so does
`OnTriggerEnter`, which lets this body through the eligibility check. -/
theorem C8_unpossessed_character_faults :
    (IsPermittedToTeleport_Implementation (some (unpossessedCharacter ℝ)) (emptyWorld ℝ)).1
      = true ∧
    PerformTeleport realMath (teleporterTo ℝ (uprightDestination ℝ) .ER_Relative true)
      (some (unpossessedCharacter ℝ)) (emptyWorld ℝ) = .error Fault.NullDereference ∧
    OnTriggerEnter realMath (teleporterTo ℝ (uprightDestination ℝ) .ER_Relative true)
      (some (unpossessedCharacter ℝ)) true (emptyWorld ℝ) = .error Fault.NullDereference := by
  have hP := PerformTeleport_no_controller realMath
    (teleporterTo ℝ (uprightDestination ℝ) .ER_Relative true) (uprightDestination ℝ)
    (unpossessedCharacter ℝ) (GAME_LOG (emptyWorld ℝ) .TeleporterTriggered) rfl rfl rfl
  have hperm : IsPermittedToTeleport_Implementation (some (unpossessedCharacter ℝ))
      (emptyWorld ℝ) = (true, emptyWorld ℝ) := rfl
  refine ⟨rfl, PerformTeleport_no_controller realMath _ (uprightDestination ℝ) _ _ rfl rfl rfl, ?_⟩
  unfold OnTriggerEnter
  simp only [hperm, hP]
  rfl

/-- C5 as stated fails for a pitched destination: with the destination pitched
up by a quarter turn, a character moving at horizontal speed 1 is left with
horizontal speed 0. -/
theorem C5_pitched_destination_counterexample :
    ∃ (T1 : AActor ℝ) (w1 : World ℝ),
      PerformTeleport realMath (teleporterTo ℝ (tiltedDestination ℝ) .ER_Fixed true)
        (some (possessedCharacter ℝ)) (emptyWorld ℝ) = .ok (true, some T1, w1) ∧
      (possessedCharacter ℝ).BodyVelocity.Size2D realMath = 1 ∧
      T1.BodyVelocity.Size2D realMath = 0 := by
  obtain ⟨T1, w1, hP, _, _, _, _, hV⟩ := PerformTeleport_body realMath
    (teleporterTo ℝ (tiltedDestination ℝ) .ER_Fixed true) (tiltedDestination ℝ)
    (possessedCharacter ℝ) (emptyWorld ℝ) rfl (fun _ => rfl)
  refine ⟨T1, w1, hP, ?_, ?_⟩
  · simp [possessedCharacter, AActor.BodyVelocity, AActor.IsCharacter, FVector.Size2D, realMath]
  · rw [hV]
    simp [teleporterTo, AUR_Teleporter.Default, tiltedDestination, FRotator.RotateVector,
      FVector.Size2D, FVector.Scale, FVector.ForwardVector, realMath_Cos_90]
    exact Real.sqrt_zero

/-- C5, amended: with momentum kept and the Fixed policy, for every destination
orientation and every traveler velocity, `PerformTeleport` writes a velocity
whose Z is the original Z and whose horizontal part is the horizontal part of
the destination's forward vector scaled by the original horizontal speed; when
the destination's pitch is 0 (any yaw and roll) that forward vector is
(cos yaw, sin yaw) in the horizontal plane and the horizontal magnitude of the
new velocity equals the original one. -/
theorem C5_fixed_momentum (M : EngineMath K) (hM : M.IsExact) (self : AUR_Teleporter K)
    (D T : AActor K) (w : World K) (hD : self.DestinationActor = some D)
    (hK : self.bKeepMomentum = true) (hF : self.ExitRotationType = EExitRotation.ER_Fixed)
    (hC : T.IsCharacter = true → T.Controller.isSome = true) :
    ∃ (T1 : AActor K) (w1 : World K),
      PerformTeleport M self (some T) w = .ok (true, some T1, w1) ∧
      T1.BodyVelocity.Z = T.BodyVelocity.Z ∧
      T1.BodyVelocity.X =
        T.BodyVelocity.Size2D M * (D.Rotation.RotateVector M FVector.ForwardVector).X ∧
      T1.BodyVelocity.Y =
        T.BodyVelocity.Size2D M * (D.Rotation.RotateVector M FVector.ForwardVector).Y ∧
      (D.Rotation.Pitch = 0 →
        (D.Rotation.RotateVector M FVector.ForwardVector).X = M.Cos D.Rotation.Yaw ∧
        (D.Rotation.RotateVector M FVector.ForwardVector).Y = M.Sin D.Rotation.Yaw ∧
        T1.BodyVelocity.Size2D M = T.BodyVelocity.Size2D M) := by
  obtain ⟨T1, w1, hP, _, _, _, _, hV⟩ := PerformTeleport_body M self D T w hD hC
  have hV1 : T1.BodyVelocity =
      { D.Rotation.RotateVector M (FVector.ForwardVector.Scale (T.BodyVelocity.Size2D M)) with
        Z := T.BodyVelocity.Z } := by
    rw [hV]
    simp [hK, hF]
  have hX : T1.BodyVelocity.X =
      T.BodyVelocity.Size2D M * (D.Rotation.RotateVector M FVector.ForwardVector).X := by
    rw [hV1]
    simp only [FRotator.RotateVector, FVector.Scale, FVector.ForwardVector]
    ring
  have hY : T1.BodyVelocity.Y =
      T.BodyVelocity.Size2D M * (D.Rotation.RotateVector M FVector.ForwardVector).Y := by
    rw [hV1]
    simp only [FRotator.RotateVector, FVector.Scale, FVector.ForwardVector]
    ring
  refine ⟨T1, w1, hP, by rw [hV1], hX, hY, ?_⟩
  intro hp
  have fX : (D.Rotation.RotateVector M FVector.ForwardVector).X = M.Cos D.Rotation.Yaw := by
    simp only [FRotator.RotateVector, FVector.ForwardVector, hp, hM.Cos_zero]
    ring
  have fY : (D.Rotation.RotateVector M FVector.ForwardVector).Y = M.Sin D.Rotation.Yaw := by
    simp only [FRotator.RotateVector, FVector.ForwardVector, hp, hM.Cos_zero]
    ring
  refine ⟨fX, fY, ?_⟩
  have hs : 0 ≤ T.BodyVelocity.Size2D M := hM.Sqrt_nonneg _
  have hsq : T1.BodyVelocity.X * T1.BodyVelocity.X + T1.BodyVelocity.Y * T1.BodyVelocity.Y =
      T.BodyVelocity.Size2D M * T.BodyVelocity.Size2D M := by
    rw [hX, hY, fX, fY]
    have h1 := hM.Cos_sq_add_Sin_sq D.Rotation.Yaw
    linear_combination (T.BodyVelocity.Size2D M * T.BodyVelocity.Size2D M) * h1
  show M.Sqrt (T1.BodyVelocity.X * T1.BodyVelocity.X + T1.BodyVelocity.Y * T1.BodyVelocity.Y) = _
  rw [hsq]
  exact hM.Sqrt_mul_self _ hs

/-- C5, amended, at the upright destination of yaw 90 and a character moving
along X, in exact real arithmetic. -/
theorem C5_fixed_momentum_witness :
    ∃ (T1 : AActor ℝ) (w1 : World ℝ),
      PerformTeleport realMath (teleporterTo ℝ (uprightDestination ℝ) .ER_Fixed true)
        (some (possessedCharacter ℝ)) (emptyWorld ℝ) = .ok (true, some T1, w1) ∧
      T1.BodyVelocity.Z = (possessedCharacter ℝ).BodyVelocity.Z ∧
      T1.BodyVelocity.Size2D realMath = (possessedCharacter ℝ).BodyVelocity.Size2D realMath := by
  obtain ⟨T1, w1, hP, hZ, _, _, h0⟩ := C5_fixed_momentum realMath realMath_isExact
    (teleporterTo ℝ (uprightDestination ℝ) .ER_Fixed true) (uprightDestination ℝ)
    (possessedCharacter ℝ) (emptyWorld ℝ) rfl rfl rfl (fun _ => rfl)
  exact ⟨T1, w1, hP, hZ, (h0 rfl).2.2⟩

/-- C6 as stated fails when destination and teleporter differ in pitch: with the
destination pitched up by a quarter turn and the teleporter upright, the
rotator applied has pitch 90 and a character moving along X with Z = 0 is left
with Z = 1. -/
theorem C6_pitched_destination_counterexample :
    (MomentumRotator (teleporterTo ℝ (tiltedDestination ℝ) .ER_Relative true)
      (tiltedDestination ℝ)).Pitch = 90 ∧
    ∃ (T1 : AActor ℝ) (w1 : World ℝ),
      PerformTeleport realMath (teleporterTo ℝ (tiltedDestination ℝ) .ER_Relative true)
        (some (possessedCharacter ℝ)) (emptyWorld ℝ) = .ok (true, some T1, w1) ∧
      (possessedCharacter ℝ).BodyVelocity.Z = 0 ∧ T1.BodyVelocity.Z = 1 := by
  obtain ⟨T1, w1, hP, _, _, _, _, hV⟩ := PerformTeleport_body realMath
    (teleporterTo ℝ (tiltedDestination ℝ) .ER_Relative true) (tiltedDestination ℝ)
    (possessedCharacter ℝ) (emptyWorld ℝ) rfl (fun _ => rfl)
  refine ⟨?_, T1, w1, hP, ?_, ?_⟩
  · simp [MomentumRotator, FRotator.Sub, AActor.GetActorRotation, AUR_Teleporter.GetActorRotation,
      teleporterTo, AUR_Teleporter.Default, tiltedDestination]
  · simp [possessedCharacter, AActor.BodyVelocity, AActor.IsCharacter]
  · rw [hV]
    simp [teleporterTo, AUR_Teleporter.Default, tiltedDestination, FRotator.RotateVector,
      MomentumRotator, FRotator.Sub, AActor.GetActorRotation, AUR_Teleporter.GetActorRotation,
      possessedCharacter, AActor.BodyVelocity, AActor.IsCharacter, realMath_Sin_90]

/-- C6, amended: with momentum kept and the Relative policy, the velocity
`PerformTeleport` writes is the original velocity rotated by the rotator of
pitch `destination.pitch - teleporter.pitch`, yaw
`unwind(destination.yaw - teleporter.yaw + 180)` and roll
`destination.roll - teleporter.roll`; when destination and teleporter have the
same pitch and the same roll this is the rotation about the vertical axis by
that yaw, and Z is unchanged. -/
theorem C6_relative_momentum (M : EngineMath K) (hM : M.IsExact) (self : AUR_Teleporter K)
    (D T : AActor K) (w : World K) (hD : self.DestinationActor = some D)
    (hK : self.bKeepMomentum = true) (hR : self.ExitRotationType = EExitRotation.ER_Relative)
    (hC : T.IsCharacter = true → T.Controller.isSome = true) :
    ∃ (T1 : AActor K) (w1 : World K),
      PerformTeleport M self (some T) w = .ok (true, some T1, w1) ∧
      T1.BodyVelocity =
        FRotator.RotateVector M
          { Pitch := D.Rotation.Pitch - self.Rotation.Pitch,
            Yaw := UnwindDegrees (D.Rotation.Yaw - self.Rotation.Yaw + 180),
            Roll := D.Rotation.Roll - self.Rotation.Roll } T.BodyVelocity ∧
      (D.Rotation.Pitch = self.Rotation.Pitch → D.Rotation.Roll = self.Rotation.Roll →
        T1.BodyVelocity =
          ⟨T.BodyVelocity.X * M.Cos (UnwindDegrees (D.Rotation.Yaw - self.Rotation.Yaw + 180)) -
             T.BodyVelocity.Y * M.Sin (UnwindDegrees (D.Rotation.Yaw - self.Rotation.Yaw + 180)),
           T.BodyVelocity.X * M.Sin (UnwindDegrees (D.Rotation.Yaw - self.Rotation.Yaw + 180)) +
             T.BodyVelocity.Y * M.Cos (UnwindDegrees (D.Rotation.Yaw - self.Rotation.Yaw + 180)),
           T.BodyVelocity.Z⟩) := by
  obtain ⟨T1, w1, hP, _, hV, hY⟩ := PerformTeleport_relative M hM self D T w hD hK hR hC
  exact ⟨T1, w1, hP, hV, hY⟩

/-- C6, amended, at the upright destination of yaw 90 and a plain body moving
along X, in exact real arithmetic: Z is unchanged. -/
theorem C6_relative_momentum_witness :
    ∃ (T1 : AActor ℝ) (w1 : World ℝ),
      PerformTeleport realMath (teleporterTo ℝ (uprightDestination ℝ) .ER_Relative true)
        (some (crate ℝ)) (emptyWorld ℝ) = .ok (true, some T1, w1) ∧
      T1.BodyVelocity.Z = (crate ℝ).BodyVelocity.Z := by
  obtain ⟨T1, w1, hP, _, h0⟩ := C6_relative_momentum realMath realMath_isExact
    (teleporterTo ℝ (uprightDestination ℝ) .ER_Relative true) (uprightDestination ℝ)
    (crate ℝ) (emptyWorld ℝ) rfl rfl rfl (fun h => by simp [crate, AActor.IsCharacter] at h)
  exact ⟨T1, w1, hP, by rw [h0 rfl rfl]⟩

/-- C10: under the Relative policy, for every teleporter, destination and
traveler orientation, the new facing yaw from `GetDesiredRotation` minus the
traveler's yaw differs from the momentum yaw
`unwind(destination.yaw - teleporter.yaw + 180)` by a whole number of turns; and
with momentum kept, when teleporter and destination have the same pitch and the
same roll, a traveler moving horizontally along its facing direction before the
teleport moves along its new facing direction, at the same speed, after it. -/
theorem C10_facing_and_velocity_turn_alike (M : EngineMath K) (hM : M.IsExact)
    (self : AUR_Teleporter K) (D T : AActor K) (w : World K)
    (hR : self.ExitRotationType = EExitRotation.ER_Relative) :
    (MomentumRotator self D).Yaw = UnwindDegrees (D.Rotation.Yaw - self.Rotation.Yaw + 180) ∧
    (∃ k : Int, (GetDesiredRotation self T.Facing D.Rotation).Yaw - T.Facing.Yaw =
      (MomentumRotator self D).Yaw + 360 * (k : K)) ∧
    (self.DestinationActor = some D → self.bKeepMomentum = true →
      (T.IsCharacter = true → T.Controller.isSome = true) →
      ∃ (T1 : AActor K) (w1 : World K),
        PerformTeleport M self (some T) w = .ok (true, some T1, w1) ∧
        T1.Facing = GetDesiredRotation self T.Facing D.Rotation ∧
        (D.Rotation.Pitch = self.Rotation.Pitch → D.Rotation.Roll = self.Rotation.Roll →
          ∀ speed : K,
            T.BodyVelocity =
              ⟨speed * M.Cos T.Facing.Yaw, speed * M.Sin T.Facing.Yaw, 0⟩ →
            T1.BodyVelocity =
              ⟨speed * M.Cos T1.Facing.Yaw, speed * M.Sin T1.Facing.Yaw, 0⟩)) := by
  have hturn : ∃ k : Int, (GetDesiredRotation self T.Facing D.Rotation).Yaw - T.Facing.Yaw =
      (MomentumRotator self D).Yaw + 360 * (k : K) := by
    rw [GetDesiredRotation_relative self T.Facing D.Rotation hR, MomentumRotator_eq]
    obtain ⟨_, _, _, _, k1, hk1⟩ :=
      UnwindDegrees_spec (D.Rotation.Yaw + T.Facing.Yaw - self.Rotation.Yaw + 180)
    obtain ⟨_, _, _, _, k2, hk2⟩ :=
      UnwindDegrees_spec (D.Rotation.Yaw - self.Rotation.Yaw + 180)
    refine ⟨k1 - k2, ?_⟩
    show UnwindDegrees (D.Rotation.Yaw + T.Facing.Yaw - self.Rotation.Yaw + 180) - T.Facing.Yaw =
      UnwindDegrees (D.Rotation.Yaw - self.Rotation.Yaw + 180) + 360 * ((k1 - k2 : Int) : K)
    rw [hk1, hk2]
    push_cast
    ring
  refine ⟨rfl, hturn, ?_⟩
  intro hD hK hC
  obtain ⟨T1, w1, hP, hyaw, _, hV⟩ := PerformTeleport_relative M hM self D T w hD hK hR hC
  refine ⟨T1, w1, hP, hyaw, ?_⟩
  intro hp hr speed hv
  obtain ⟨k, hk⟩ := hturn
  have hF : T1.Facing.Yaw = T.Facing.Yaw + (MomentumRotator self D).Yaw + 360 * (k : K) := by
    rw [hyaw]
    linear_combination hk
  obtain ⟨hc, hs⟩ := IsExact_turns hM (T.Facing.Yaw + (MomentumRotator self D).Yaw) k
  rw [hV hp hr, hF, hc, hs, hM.Cos_add, hM.Sin_add, hv, MomentumRotator_eq,
    FVector.mk.injEq]
  dsimp only
  refine ⟨by ring, by ring, rfl⟩

/-- C10 at the upright destination of yaw 90 and a character looking and moving
along yaw 0 at speed 1, in exact real arithmetic. -/
theorem C10_facing_and_velocity_turn_alike_witness :
    ∃ (T1 : AActor ℝ) (w1 : World ℝ),
      PerformTeleport realMath (teleporterTo ℝ (uprightDestination ℝ) .ER_Relative true)
        (some (possessedCharacter ℝ)) (emptyWorld ℝ) = .ok (true, some T1, w1) ∧
      T1.BodyVelocity =
        ⟨1 * realMath.Cos T1.Facing.Yaw, 1 * realMath.Sin T1.Facing.Yaw, 0⟩ := by
  obtain ⟨T1, w1, hP, _, h0⟩ := (C10_facing_and_velocity_turn_alike realMath realMath_isExact
    (teleporterTo ℝ (uprightDestination ℝ) .ER_Relative true) (uprightDestination ℝ)
    (possessedCharacter ℝ) (emptyWorld ℝ) rfl).2.2 rfl rfl (fun _ => rfl)
  refine ⟨T1, w1, hP, h0 rfl rfl 1 ?_⟩
  simp [possessedCharacter, AActor.BodyVelocity, AActor.Facing, AActor.IsCharacter, realMath]

end Claims

end OpenTournament
